import Mathlib

/-!
Verification of the icon-generator program (src/icon_generator.py).

The file gives a shallow embedding of the parts of the program the
specification talks about: the marker-stripping string handling in the
generate_icon_image tool, the filename sanitization, the image pipeline
(service call, download, decode, resize, save) as a function of an
environment of external effects, the two other tools (refine_prompt and
consult_style_expert), and the per-task delegation state machine.
Strings are modelled as lists of characters; Python str.strip, str.replace,
str.split, the substring test and re.sub character filtering are modelled
by executable functions below.
-/

set_option maxHeartbeats 1000000

namespace IconGen

/-- Python whitespace characters (string.whitespace), as stripped by str.strip. -/
def isSpaceChar (c : Char) : Bool :=
  c == ' ' || c == Char.ofNat 9 || c == Char.ofNat 10 || c == Char.ofNat 13 ||
    c == Char.ofNat 11 || c == Char.ofNat 12

/-- Characters kept by re.sub of the pattern class complement of word, space, hyphen
(line 145-146): word characters, whitespace, and the hyphen survive. -/
def keepChar (c : Char) : Bool :=
  c.isAlphanum || c == '_' || isSpaceChar c || c == '-'

/-- One character of str.replace applied to a space: spaces become underscores. -/
def replChar (c : Char) : Char := if c == ' ' then '_' else c

/-- Python str.strip: drop whitespace from both ends. -/
def pyStrip (s : List Char) : List Char :=
  ((s.dropWhile isSpaceChar).reverse.dropWhile isSpaceChar).reverse

/-- Boolean test that m is a leading segment of s. -/
def isPre : List Char → List Char → Bool
  | [], _ => true
  | _ :: _, [] => false
  | a :: as, b :: bs => decide (a = b) && isPre as bs

/-- Python substring containment, the membership operator on strings. -/
def containsSub (m : List Char) : List Char → Bool
  | [] => m.isEmpty
  | c :: rest => isPre m (c :: rest) || containsSub m rest

/-- Python str.split on a separator m: greedy left-to-right splitting. -/
def pySplit (m : List Char) : List Char → List (List Char)
  | [] => [[]]
  | c :: rest =>
    if isPre m (c :: rest) then
      [] :: pySplit m (rest.drop (m.length - 1))
    else
      match pySplit m rest with
      | [] => [[c]]
      | p :: ps => (c :: p) :: ps
termination_by s => s.length
decreasing_by
  all_goals simp only [List.length_cons, List.length_drop]
  all_goals omega

/-- The delegation marker text produced by consult_style_expert (line 99). -/
def marker : List Char :=
  ("Style expert").data ++ [Char.ofNat 39] ++ ("s refined prompt:").data

/-- Lines 113-119 of generate_icon_image: if the marker occurs in the refined
prompt, keep only the text after its last occurrence, stripped of surrounding
whitespace; otherwise forward the prompt unchanged. -/
def stripMarker (s : List Char) : List Char :=
  if containsSub marker s then pyStrip ((pySplit marker s).getLastD []) else s

/-- Line 145: sanitization of the style label (filter characters, strip, replace
spaces by underscores). -/
def sanitizeStyle (s : List Char) : List Char :=
  (pyStrip (s.filter keepChar)).map replChar

/-- Line 146: sanitization of the description: filter characters, cap to the
first 30 characters, strip, replace spaces by underscores. -/
def sanitizeDesc (s : List Char) : List Char :=
  (pyStrip ((s.filter keepChar).take 30)).map replChar

/-- Line 148: the output filename, timestamp included. -/
def mkFilename (art_style description ts : List Char) : List Char :=
  ("icon_").data ++ sanitizeStyle art_style ++ ("_").data ++ sanitizeDesc description ++
    ("_").data ++ ts ++ (".png").data

/-- The shared request context (dataclass IconRequest, lines 22-28); the client
handle is abstracted to a plain numeric identifier. -/
structure IconRequest where
  art_style : List Char
  description : List Char
  openai_client : Nat
deriving DecidableEq

/-- A decoded in-memory raster, the PIL image contract the pipeline relies on. -/
structure PILImage where
  width : Nat
  height : Nat
  mode : List Char
deriving DecidableEq

/-- PIL resampling filters. -/
inductive ResampleFilter where
  | nearest | box | bilinear | hamming | bicubic | lanczos
deriving DecidableEq

/-- PIL Image.resize contract: the result has exactly the requested size and
keeps the source mode. -/
def pilResize (img : PILImage) (size : Nat × Nat) (_f : ResampleFilter) : PILImage :=
  { width := size.1, height := size.2, mode := img.mode }

/-- The failure taxonomy of the image pipeline. -/
inductive PipeErr where
  | generationServiceError | downloadError | decodeError | filesystemError
deriving DecidableEq

/-- A file persisted by the pipeline. -/
structure SavedFile where
  dir : List Char
  name : List Char
  content : PILImage
  format : List Char
deriving DecidableEq

/-- The external effects one call of generate_icon_image observes: the
generation-service outcome, the HTTP status of the download, the decode outcome
of the downloaded payload, whether the output directory exists at save time,
and the event-loop timestamp rendered into the filename. -/
structure GenEnv where
  genResult : Except Unit (List Char)
  httpStatus : Nat
  decodeResult : Except Unit PILImage
  outputDirExists : Bool
  loopTime : List Char

/-- httpx raise_for_status succeeds exactly on 2xx responses. -/
def statusSuccess (s : Nat) : Bool := decide (200 ≤ s) && decide (s < 300)

/-- Observable outcome of one generate_icon_image call: the returned value or
error, the prompt forwarded to the generation service, the resize calls made,
the files written, and the request context after the call. -/
structure ExecResult where
  result : Except PipeErr (List Char)
  promptSent : Option (List Char)
  resizeCalls : List ((Nat × Nat) × ResampleFilter)
  written : List SavedFile
  ctxOut : IconRequest

/-- Embedding of generate_icon_image (lines 102-156): strip the marker, call
the generation service, download (raise on non-2xx), decode, resize to 128x128
with LANCZOS, build the filename, save the PNG under the output directory.
The save fails when the output directory does not exist; nothing is written on
any failure path. -/
def generate_icon_image (env : GenEnv) (ctx : IconRequest) (refined_prompt : List Char) :
    ExecResult :=
  let art_style := ctx.art_style
  let description := ctx.description
  let actual_prompt := stripMarker refined_prompt
  match env.genResult with
  | Except.error _ =>
    { result := Except.error PipeErr.generationServiceError, promptSent := some actual_prompt,
      resizeCalls := [], written := [], ctxOut := ctx }
  | Except.ok _url =>
    if statusSuccess env.httpStatus then
      match env.decodeResult with
      | Except.error _ =>
        { result := Except.error PipeErr.decodeError, promptSent := some actual_prompt,
          resizeCalls := [], written := [], ctxOut := ctx }
      | Except.ok image =>
        let resized := pilResize image (128, 128) ResampleFilter.lanczos
        let filename := mkFilename art_style description env.loopTime
        if env.outputDirExists then
          { result := Except.ok (("Icon generated and saved to: ").data ++ filename),
            promptSent := some actual_prompt,
            resizeCalls := [((128, 128), ResampleFilter.lanczos)],
            written := [{ dir := ("output").data, name := filename, content := resized,
                          format := ("PNG").data }],
            ctxOut := ctx }
        else
          { result := Except.error PipeErr.filesystemError, promptSent := some actual_prompt,
            resizeCalls := [((128, 128), ResampleFilter.lanczos)], written := [], ctxOut := ctx }
    else
      { result := Except.error PipeErr.downloadError, promptSent := some actual_prompt,
        resizeCalls := [], written := [], ctxOut := ctx }

/-- Embedding of consult_style_expert (lines 82-99): run the stylist (its
output is the external input stylistOutput) and wrap it with the marker and a
separating space; the context is only read. -/
def consult_style_expert (ctx : IconRequest) (_prompt stylistOutput : List Char) :
    List Char × IconRequest :=
  (marker ++ (" ").data ++ stylistOutput, ctx)

/-- Embedding of refine_prompt (lines 47-64): build the stylist prompt from the
context fields; the context is only read. -/
def refine_prompt (ctx : IconRequest) : List Char × IconRequest :=
  (("\nCreate a detailed prompt for a 128x128 pixel icon in ").data ++ ctx.art_style ++
      (" art style.\nThe icon should depict: ").data ++ ctx.description ++
      (".\nInclude specific details about composition, colors, and visual elements\nthat best represent this style.\n").data,
    ctx)

/-- Embedding of the directory preparation in main (lines 211-213): the task
driver ensures the output directory exists before any task runs. -/
def mainEnsureOutputDir (env : GenEnv) : GenEnv :=
  { env with outputDirExists := true }

/-- Modelled from the spec: the per-task protocol state machine of section 4.2.
The tool-dispatch loop that decides when the two capabilities run lives in the
pydantic-ai framework, not in this repository; only the instruction text
(lines 69-79) is in the source. States and transitions follow the spec. -/
inductive TaskState where
  | idle | awaitingStylistConsult | awaitingImageGeneration | done
deriving DecidableEq

/-- Modelled from the spec: the observable per-task events, a task start and
the successful returns of the two capabilities. -/
inductive TaskEvent where
  | taskStart | consultStylistOk | generateImageOk
deriving DecidableEq

/-- Modelled from the spec: the allowed transitions of the per-task state
machine; anything else is rejected. -/
def taskStep : TaskState → TaskEvent → Option TaskState
  | TaskState.idle, TaskEvent.taskStart => some TaskState.awaitingStylistConsult
  | TaskState.awaitingStylistConsult, TaskEvent.consultStylistOk =>
      some TaskState.awaitingImageGeneration
  | TaskState.awaitingImageGeneration, TaskEvent.generateImageOk => some TaskState.done
  | _, _ => none

/-- Modelled from the spec: run a sequence of events through the task state
machine. -/
def runTask : TaskState → List TaskEvent → Option TaskState
  | s, [] => some s
  | s, e :: rest =>
    match taskStep s e with
    | none => none
    | some s' => runTask s' rest

/-! Lemmas about the string machinery. -/

theorem isPre_iff (m : List Char) : ∀ s, isPre m s = true ↔ ∃ t, s = m ++ t := by
  induction m with
  | nil => intro s; simp [isPre]
  | cons a as ih =>
    intro s
    cases s with
    | nil => simp [isPre]
    | cons b bs =>
      simp only [isPre, Bool.and_eq_true, decide_eq_true_eq, ih bs, List.cons_append]
      constructor
      · rintro ⟨hab, t, ht⟩
        exact ⟨t, by rw [hab, ht]⟩
      · rintro ⟨t, ht⟩
        injection ht with h1 h2
        exact ⟨h1.symm, t, h2⟩

theorem containsSub_iff (m : List Char) : ∀ s, containsSub m s = true ↔ ∃ a b, s = a ++ m ++ b := by
  intro s
  induction s with
  | nil =>
    simp only [containsSub, List.isEmpty_iff]
    constructor
    · intro hm; exact ⟨[], [], by simp [hm]⟩
    · rintro ⟨a, b, hab⟩
      rcases List.append_eq_nil.mp hab.symm with ⟨h1, _⟩
      rcases List.append_eq_nil.mp h1 with ⟨_, hm⟩
      exact hm
  | cons c rest ih =>
    constructor
    · intro h
      have h' : isPre m (c :: rest) = true ∨ containsSub m rest = true := by
        have := h
        rw [containsSub] at this
        rcases Bool.or_eq_true_iff.mp this with h1 | h2
        · exact Or.inl h1
        · exact Or.inr h2
      rcases h' with h1 | h2
      · rcases (isPre_iff m (c :: rest)).mp h1 with ⟨t, ht⟩
        exact ⟨[], t, by simp [ht]⟩
      · rcases ih.mp h2 with ⟨a, b, hab⟩
        exact ⟨c :: a, b, by simp [hab]⟩
    · rintro ⟨a, b, hab⟩
      cases a with
      | nil =>
        have h1 : isPre m (c :: rest) = true := (isPre_iff _ _).mpr ⟨b, by simpa using hab⟩
        rw [containsSub, h1, Bool.true_or]
      | cons a0 as =>
        rw [List.cons_append, List.cons_append] at hab
        injection hab with h1 h2
        have h3 : containsSub m rest = true := ih.mpr ⟨as, b, h2⟩
        rw [containsSub, h3, Bool.or_true]

theorem pySplit_nil (m : List Char) : pySplit m [] = [[]] := by
  rw [pySplit]

theorem pySplit_cons_pos (m : List Char) (c : Char) (rest : List Char)
    (h : isPre m (c :: rest) = true) :
    pySplit m (c :: rest) = [] :: pySplit m (rest.drop (m.length - 1)) := by
  rw [pySplit, h]
  simp

theorem pySplit_cons_neg (m : List Char) (c : Char) (rest p : List Char) (ps : List (List Char))
    (h : isPre m (c :: rest) = false) (hE : pySplit m rest = p :: ps) :
    pySplit m (c :: rest) = (c :: p) :: ps := by
  rw [pySplit, h, hE]
  simp

theorem pySplit_ne_nil (m : List Char) : ∀ s, pySplit m s ≠ [] := by
  intro s
  cases s with
  | nil => rw [pySplit_nil]; simp
  | cons c rest =>
    by_cases h : isPre m (c :: rest) = true
    · rw [pySplit_cons_pos m c rest h]; simp
    · have h' : isPre m (c :: rest) = false := Bool.eq_false_iff.mpr h
      cases hE : pySplit m rest with
      | nil =>
        rw [pySplit, h', hE]
        simp
      | cons p ps =>
        rw [pySplit_cons_neg m c rest p ps h' hE]
        simp

theorem pySplit_head_decomp (m : List Char) :
    ∀ s p ps, pySplit m s = p :: ps → ∃ r, s = p ++ r := by
  intro s
  induction s with
  | nil =>
    intro p ps h
    rw [pySplit_nil] at h
    injection h with h1 _
    exact ⟨[], by rw [← h1]; rfl⟩
  | cons c rest ih =>
    intro p ps h
    by_cases hp : isPre m (c :: rest) = true
    · rw [pySplit_cons_pos m c rest hp] at h
      injection h with h1 _
      exact ⟨c :: rest, by rw [← h1]; rfl⟩
    · have hp' : isPre m (c :: rest) = false := Bool.eq_false_iff.mpr hp
      cases hE : pySplit m rest with
      | nil => exact absurd hE (pySplit_ne_nil m rest)
      | cons p' ps' =>
        rw [pySplit_cons_neg m c rest p' ps' hp' hE] at h
        injection h with h1 _
        rcases ih p' ps' hE with ⟨r, hr⟩
        exact ⟨r, by rw [← h1, List.cons_append, ← hr]⟩

theorem getLastD_cons_of_ne {α : Type} (x : α) (l : List α) (d : α) (hl : l ≠ []) :
    (x :: l).getLastD d = l.getLastD d := by
  cases l with
  | nil => exact absurd rfl hl
  | cons y ys => simp [List.getLastD_cons]

theorem pySplit_of_not_contains (m : List Char) :
    ∀ s, containsSub m s = false → pySplit m s = [s] := by
  intro s
  induction s with
  | nil => intro _; exact pySplit_nil m
  | cons c rest ih =>
    intro h
    rw [containsSub] at h
    rcases Bool.or_eq_false_iff.mp h with ⟨h1, h2⟩
    rw [pySplit_cons_neg m c rest rest [] h1 (ih h2)]

theorem pySplit_singleton (m : List Char) (hm : m ≠ []) :
    ∀ s t, pySplit m s = [t] → containsSub m s = false ∧ t = s := by
  intro s
  induction s with
  | nil =>
    intro t h
    rw [pySplit_nil] at h
    injection h with h1 _
    refine ⟨?_, h1.symm⟩
    rw [containsSub]
    cases m with
    | nil => exact absurd rfl hm
    | cons a as => rfl
  | cons c rest ih =>
    intro t h
    by_cases hp : isPre m (c :: rest) = true
    · rw [pySplit_cons_pos m c rest hp] at h
      injection h with _ h2
      exact absurd h2 (pySplit_ne_nil m _)
    · have hp' : isPre m (c :: rest) = false := Bool.eq_false_iff.mpr hp
      cases hE : pySplit m rest with
      | nil => exact absurd hE (pySplit_ne_nil m rest)
      | cons p ps =>
        rw [pySplit_cons_neg m c rest p ps hp' hE] at h
        injection h with h1 h2
        subst h2
        rcases ih p hE with ⟨hc, hpr⟩
        subst hpr
        constructor
        · rw [containsSub, hp', hc]
          rfl
        · rw [← h1]

theorem pySplit_getLastD_not_contains (m : List Char) (hm : m ≠ []) :
    ∀ n, ∀ s : List Char, s.length ≤ n →
      containsSub m ((pySplit m s).getLastD []) = false := by
  have hnilcase : containsSub m (((pySplit m []).getLastD [])) = false := by
    rw [pySplit_nil]
    show containsSub m [] = false
    cases m with
    | nil => exact absurd rfl hm
    | cons a as => rfl
  intro n
  induction n with
  | zero =>
    intro s hs
    have hsnil : s = [] := List.length_eq_zero.mp (Nat.le_zero.mp hs)
    subst hsnil
    exact hnilcase
  | succ n ih =>
    intro s hs
    cases s with
    | nil => exact hnilcase
    | cons c rest =>
      have hrest : rest.length ≤ n := by
        simp only [List.length_cons] at hs
        omega
      by_cases hp : isPre m (c :: rest) = true
      · rw [pySplit_cons_pos m c rest hp]
        have hlen : (rest.drop (m.length - 1)).length ≤ n := by
          rw [List.length_drop]
          omega
        rw [getLastD_cons_of_ne [] _ [] (pySplit_ne_nil m _)]
        exact ih (rest.drop (m.length - 1)) hlen
      · have hp' : isPre m (c :: rest) = false := Bool.eq_false_iff.mpr hp
        cases hE : pySplit m rest with
        | nil => exact absurd hE (pySplit_ne_nil m rest)
        | cons p ps =>
          rw [pySplit_cons_neg m c rest p ps hp' hE]
          have hrec := ih rest hrest
          rw [hE] at hrec
          cases ps with
          | nil =>
            simp only [List.getLastD_cons] at hrec ⊢
            simp only [List.getLastD] at hrec ⊢
            rw [containsSub]
            have hPre2 : isPre m (c :: p) = false := by
              by_contra hcon
              have hcon' : isPre m (c :: p) = true := by
                cases hcv : isPre m (c :: p)
                · exact absurd hcv hcon
                · rfl
              rcases (isPre_iff m (c :: p)).mp hcon' with ⟨t, ht⟩
              rcases pySplit_head_decomp m rest p [] hE with ⟨r, hr⟩
              have hbig : isPre m (c :: rest) = true := by
                refine (isPre_iff m (c :: rest)).mpr ⟨t ++ r, ?_⟩
                rw [hr, ← List.cons_append, ht, List.append_assoc]
              rw [hbig] at hp'
              exact Bool.noConfusion hp'
            rw [hPre2, hrec]
            rfl
          | cons q qs =>
            rw [getLastD_cons_of_ne (c :: p) (q :: qs) [] (by simp)]
            rw [getLastD_cons_of_ne p (q :: qs) [] (by simp)] at hrec
            exact hrec

theorem pySplit_last_decomp (m : List Char) (hm : m ≠ []) :
    ∀ n, ∀ s : List Char, s.length ≤ n → containsSub m s = true →
      ∃ a, s = a ++ m ++ ((pySplit m s).getLastD []) := by
  intro n
  induction n with
  | zero =>
    intro s hs hc
    have hsnil : s = [] := List.length_eq_zero.mp (Nat.le_zero.mp hs)
    subst hsnil
    rw [containsSub] at hc
    cases m with
    | nil => exact absurd rfl hm
    | cons a as => exact absurd hc (by simp)
  | succ n ih =>
    intro s hs hc
    cases s with
    | nil =>
      rw [containsSub] at hc
      cases m with
      | nil => exact absurd rfl hm
      | cons a as => exact absurd hc (by simp)
    | cons c rest =>
      have hrest : rest.length ≤ n := by
        simp only [List.length_cons] at hs
        omega
      by_cases hp : isPre m (c :: rest) = true
      · -- the separator matches at the head: s = m ++ tl
        rcases (isPre_iff m (c :: rest)).mp hp with ⟨t, ht⟩
        have hlenpos : 1 ≤ m.length := by
          cases m with
          | nil => exact absurd rfl hm
          | cons a as => simp
        have htl : t = rest.drop (m.length - 1) := by
          have h1 : (c :: rest).drop m.length = t := by
            rw [ht, List.drop_left]
          have h2 : (c :: rest).drop m.length = rest.drop (m.length - 1) := by
            have hml : m.length = (m.length - 1) + 1 := by omega
            conv_lhs => rw [hml]
            rw [List.drop_succ_cons]
          rw [← h1, h2]
        rw [pySplit_cons_pos m c rest hp,
          getLastD_cons_of_ne [] _ [] (pySplit_ne_nil m _)]
        by_cases hcTl : containsSub m (rest.drop (m.length - 1)) = true
        · have hlen : (rest.drop (m.length - 1)).length ≤ n := by
            rw [List.length_drop]
            omega
          rcases ih (rest.drop (m.length - 1)) hlen hcTl with ⟨a', ha⟩
          refine ⟨m ++ a', ?_⟩
          rw [ht, htl]
          conv_lhs => rw [ha]
          simp [List.append_assoc]
        · have hcTl' : containsSub m (rest.drop (m.length - 1)) = false :=
            Bool.eq_false_iff.mpr hcTl
          rw [pySplit_of_not_contains m _ hcTl']
          simp only [List.getLastD_cons, List.getLastD]
          refine ⟨[], ?_⟩
          rw [ht, htl]
          rfl
      · have hp' : isPre m (c :: rest) = false := Bool.eq_false_iff.mpr hp
        have hcr : containsSub m rest = true := by
          rw [containsSub, hp'] at hc
          simpa using hc
        cases hE : pySplit m rest with
        | nil => exact absurd hE (pySplit_ne_nil m rest)
        | cons p ps =>
          cases ps with
          | nil =>
            rcases pySplit_singleton m hm rest p hE with ⟨hfalse, _⟩
            rw [hfalse] at hcr
            exact absurd hcr (by simp)
          | cons q qs =>
            rcases ih rest hrest hcr with ⟨a', ha⟩
            rw [hE] at ha
            rw [pySplit_cons_neg m c rest p (q :: qs) hp' hE]
            rw [getLastD_cons_of_ne (c :: p) (q :: qs) [] (by simp)]
            rw [getLastD_cons_of_ne p (q :: qs) [] (by simp)] at ha
            refine ⟨c :: a', ?_⟩
            rw [List.cons_append, List.cons_append, ← ha]

/-! Lemmas about pyStrip. -/

theorem dropWhile_suffix_decomp (p : Char → Bool) :
    ∀ l : List Char, ∃ x, l = x ++ l.dropWhile p := by
  intro l
  induction l with
  | nil => exact ⟨[], rfl⟩
  | cons c rest ih =>
    by_cases hc : p c = true
    · rcases ih with ⟨x, hx⟩
      refine ⟨c :: x, ?_⟩
      rw [List.dropWhile_cons, if_pos hc, List.cons_append, ← hx]
    · refine ⟨[], ?_⟩
      rw [List.dropWhile_cons, if_neg hc]
      rfl

theorem dropWhile_head_not (p : Char → Bool) :
    ∀ (l : List Char) hd tl, l.dropWhile p = hd :: tl → p hd = false := by
  intro l
  induction l with
  | nil => intro hd tl h; exact absurd h (by simp)
  | cons c rest ih =>
    intro hd tl h
    rw [List.dropWhile_cons] at h
    by_cases hc : p c = true
    · rw [if_pos hc] at h
      exact ih hd tl h
    · rw [if_neg hc] at h
      injection h with h1 _
      rw [← h1]
      exact Bool.eq_false_iff.mpr hc

theorem dropWhile_eq_self_of (p : Char → Bool) (l : List Char)
    (h : ∀ hd tl, l = hd :: tl → p hd = false) : l.dropWhile p = l := by
  cases l with
  | nil => rfl
  | cons c rest =>
    rw [List.dropWhile_cons, if_neg]
    rw [h c rest rfl]
    simp

theorem dropWhile_length_le (p : Char → Bool) (l : List Char) :
    (l.dropWhile p).length ≤ l.length := by
  rcases dropWhile_suffix_decomp p l with ⟨x, hx⟩
  conv_rhs => rw [hx]
  rw [List.length_append]
  omega

theorem pyStrip_length_le (t : List Char) : (pyStrip t).length ≤ t.length := by
  unfold pyStrip
  rw [List.length_reverse]
  calc ((t.dropWhile isSpaceChar).reverse.dropWhile isSpaceChar).length
      ≤ (t.dropWhile isSpaceChar).reverse.length := dropWhile_length_le _ _
    _ = (t.dropWhile isSpaceChar).length := List.length_reverse _
    _ ≤ t.length := dropWhile_length_le _ _

theorem pyStrip_decomp (t : List Char) : ∃ x y, t = x ++ pyStrip t ++ y := by
  unfold pyStrip
  rcases dropWhile_suffix_decomp isSpaceChar t with ⟨x, hx⟩
  rcases dropWhile_suffix_decomp isSpaceChar (t.dropWhile isSpaceChar).reverse with ⟨z, hz⟩
  refine ⟨x, z.reverse, ?_⟩
  have hu : t.dropWhile isSpaceChar =
      ((t.dropWhile isSpaceChar).reverse.dropWhile isSpaceChar).reverse ++ z.reverse := by
    have hrev := congrArg List.reverse hz
    rw [List.reverse_reverse, List.reverse_append] at hrev
    exact hrev
  conv_lhs => rw [hx, hu]
  rw [List.append_assoc]

theorem mem_dropWhile (p : Char → Bool) (l : List Char) {c : Char}
    (h : c ∈ l.dropWhile p) : c ∈ l := by
  rcases dropWhile_suffix_decomp p l with ⟨x, hx⟩
  rw [hx]
  exact List.mem_append_right x h

theorem mem_pyStrip {c : Char} {t : List Char} (h : c ∈ pyStrip t) : c ∈ t := by
  unfold pyStrip at h
  rw [List.mem_reverse] at h
  have h2 : c ∈ (t.dropWhile isSpaceChar).reverse := mem_dropWhile _ _ h
  rw [List.mem_reverse] at h2
  exact mem_dropWhile _ _ h2

theorem pyStrip_eq_self (t : List Char) (h1 : t.dropWhile isSpaceChar = t)
    (h2 : t.reverse.dropWhile isSpaceChar = t.reverse) : pyStrip t = t := by
  unfold pyStrip
  rw [h1, h2, List.reverse_reverse]

theorem pyStrip_head_not_space (t : List Char) (hd : Char) (tl : List Char)
    (h : pyStrip t = hd :: tl) : isSpaceChar hd = false := by
  rcases dropWhile_suffix_decomp isSpaceChar (t.dropWhile isSpaceChar).reverse with ⟨x, hx⟩
  have hu : t.dropWhile isSpaceChar = pyStrip t ++ x.reverse := by
    have hrev := congrArg List.reverse hx
    rw [List.reverse_reverse, List.reverse_append] at hrev
    exact hrev
  rw [h] at hu
  exact dropWhile_head_not isSpaceChar t hd (tl ++ x.reverse) (by rw [hu]; rfl)

theorem pyStrip_rev_head_not_space (t : List Char) (hd : Char) (tl : List Char)
    (h : (pyStrip t).reverse = hd :: tl) : isSpaceChar hd = false := by
  have h2 : (t.dropWhile isSpaceChar).reverse.dropWhile isSpaceChar = hd :: tl := by
    rw [← h]
    unfold pyStrip
    rw [List.reverse_reverse]
  exact dropWhile_head_not isSpaceChar _ hd tl h2

/-! Marker-freeness of the stripped prompt. -/

theorem containsSub_of_middle (m x u y : List Char) (h : containsSub m u = true) :
    containsSub m (x ++ u ++ y) = true := by
  rcases (containsSub_iff m u).mp h with ⟨a, b, hab⟩
  refine (containsSub_iff m _).mpr ⟨x ++ a, b ++ y, ?_⟩
  rw [hab]
  simp [List.append_assoc]

theorem containsSub_pyStrip_false (m t : List Char) (h : containsSub m t = false) :
    containsSub m (pyStrip t) = false := by
  cases hc : containsSub m (pyStrip t) with
  | false => rfl
  | true =>
    rcases pyStrip_decomp t with ⟨x, y, hxy⟩
    have htrue : containsSub m t = true := by
      rw [hxy]
      exact containsSub_of_middle m x _ y hc
    rw [htrue] at h
    exact Bool.noConfusion h

theorem marker_ne_nil : marker ≠ [] := by decide

theorem stripMarker_no_marker (s : List Char) : containsSub marker (stripMarker s) = false := by
  unfold stripMarker
  by_cases h : containsSub marker s = true
  · rw [if_pos h]
    exact containsSub_pyStrip_false marker _
      (pySplit_getLastD_not_contains marker marker_ne_nil s.length s (le_refl _))
  · rw [if_neg h]
    exact Bool.eq_false_iff.mpr h

/-! Lemmas about sanitization. -/

theorem replChar_not_space {c : Char} (h : isSpaceChar c = false) :
    isSpaceChar (replChar c) = false := by
  unfold replChar
  by_cases hc : (c == ' ') = true
  · rw [if_pos hc]
    decide
  · rw [if_neg hc]
    exact h

theorem keepChar_replChar {c : Char} (h : keepChar c = true) :
    keepChar (replChar c) = true := by
  unfold replChar
  by_cases hc : (c == ' ') = true
  · rw [if_pos hc]
    decide
  · rw [if_neg hc]
    exact h

theorem replChar_idem (c : Char) : replChar (replChar c) = replChar c := by
  by_cases hc : (c == ' ') = true
  · have h1 : replChar c = '_' := by
      unfold replChar
      rw [if_pos hc]
    rw [h1]
    decide
  · have h1 : replChar c = c := by
      unfold replChar
      rw [if_neg hc]
    rw [h1, h1]

theorem sanitized_trimmed_front (u : List Char) :
    ((pyStrip u).map replChar).dropWhile isSpaceChar = (pyStrip u).map replChar := by
  apply dropWhile_eq_self_of
  intro hd tl h
  cases hs : pyStrip u with
  | nil => rw [hs] at h; exact absurd h (by simp)
  | cons h0 t0 =>
    rw [hs, List.map_cons] at h
    injection h with h1 _
    rw [← h1]
    exact replChar_not_space (pyStrip_head_not_space u h0 t0 hs)

theorem sanitized_trimmed_back (u : List Char) :
    ((pyStrip u).map replChar).reverse.dropWhile isSpaceChar =
      ((pyStrip u).map replChar).reverse := by
  apply dropWhile_eq_self_of
  intro hd tl h
  rw [← List.map_reverse] at h
  cases hs : (pyStrip u).reverse with
  | nil => rw [hs] at h; exact absurd h (by simp)
  | cons h0 t0 =>
    rw [hs, List.map_cons] at h
    injection h with h1 _
    rw [← h1]
    exact replChar_not_space (pyStrip_rev_head_not_space u h0 t0 hs)

theorem pyStrip_sanitized (u : List Char) :
    pyStrip ((pyStrip u).map replChar) = (pyStrip u).map replChar :=
  pyStrip_eq_self _ (sanitized_trimmed_front u) (sanitized_trimmed_back u)

theorem sanitizeStyle_idem (s : List Char) :
    sanitizeStyle (sanitizeStyle s) = sanitizeStyle s := by
  unfold sanitizeStyle
  have hfilter : ((pyStrip (s.filter keepChar)).map replChar).filter keepChar =
      (pyStrip (s.filter keepChar)).map replChar := by
    rw [List.filter_eq_self]
    intro a ha
    rcases List.mem_map.mp ha with ⟨b, hb, hba⟩
    have hbk : keepChar b = true :=
      (List.mem_filter.mp (mem_pyStrip hb)).2
    rw [← hba]
    exact keepChar_replChar hbk
  rw [hfilter, pyStrip_sanitized, List.map_map]
  congr 1
  funext c
  exact replChar_idem c

theorem sanitizeDesc_length_le (d : List Char) : (sanitizeDesc d).length ≤ 30 := by
  unfold sanitizeDesc
  rw [List.length_map]
  have h1 := pyStrip_length_le ((d.filter keepChar).take 30)
  have h2 : ((d.filter keepChar).take 30).length ≤ 30 := by
    rw [List.length_take]
    exact Nat.min_le_left _ _
  omega

/-! Lemmas about the pipeline embedding. -/

theorem promptSent_eq (env : GenEnv) (ctx : IconRequest) (rp : List Char) :
    (generate_icon_image env ctx rp).promptSent = some (stripMarker rp) := by
  unfold generate_icon_image
  cases hg : env.genResult with
  | error e => rfl
  | ok u =>
    by_cases hs : statusSuccess env.httpStatus = true
    · cases hd : env.decodeResult with
      | error e2 => simp [hs]
      | ok img =>
        by_cases ho : env.outputDirExists = true
        · simp [hs, ho]
        · simp [hs, ho]
    · simp [hs]

theorem ctxOut_eq (env : GenEnv) (ctx : IconRequest) (rp : List Char) :
    (generate_icon_image env ctx rp).ctxOut = ctx := by
  unfold generate_icon_image
  cases hg : env.genResult with
  | error e => rfl
  | ok u =>
    by_cases hs : statusSuccess env.httpStatus = true
    · cases hd : env.decodeResult with
      | error e2 => simp [hs]
      | ok img =>
        by_cases ho : env.outputDirExists = true
        · simp [hs, ho]
        · simp [hs, ho]
    · simp [hs]

theorem mkFilename_coffee (ts : List Char) :
    mkFilename (("minimalist").data) (("a hot cup of coffee").data) ts =
      ("icon_minimalist_a_hot_cup_of_coffee_").data ++ ts ++ (".png").data := by
  unfold mkFilename
  rw [show ("icon_").data ++ sanitizeStyle (("minimalist").data) ++ ("_").data ++
      sanitizeDesc (("a hot cup of coffee").data) ++ ("_").data =
      ("icon_minimalist_a_hot_cup_of_coffee_").data from by decide]

/-! Concrete sample inputs used by the witness theorems. -/

def sampleImage : PILImage := { width := 1024, height := 1024, mode := ("RGB").data }

def urlSample : List Char := ("https://example.org/img").data

def ctxSample : IconRequest :=
  { art_style := ("minimalist").data, description := ("a hot cup of coffee").data,
    openai_client := 0 }

def rpSample : List Char := marker ++ (" ").data ++ ("A clean flat coffee cup icon").data

def envOk : GenEnv :=
  { genResult := Except.ok urlSample, httpStatus := 200,
    decodeResult := Except.ok sampleImage, outputDirExists := true,
    loopTime := ("12345.6").data }

def envBad : GenEnv := { envOk with httpStatus := 404 }

def envNoDir : GenEnv := { envOk with outputDirExists := false }

def fileOk : SavedFile :=
  { dir := ("output").data,
    name := mkFilename ctxSample.art_style ctxSample.description envOk.loopTime,
    content := pilResize sampleImage (128, 128) ResampleFilter.lanczos,
    format := ("PNG").data }

/-! Branch shapes of the pipeline. -/

theorem generate_service_error (env : GenEnv) (ctx : IconRequest) (rp : List Char) (e : Unit)
    (hg : env.genResult = Except.error e) :
    generate_icon_image env ctx rp =
      { result := Except.error PipeErr.generationServiceError,
        promptSent := some (stripMarker rp), resizeCalls := [], written := [],
        ctxOut := ctx } := by
  unfold generate_icon_image
  rw [hg]

theorem generate_download_error (env : GenEnv) (ctx : IconRequest) (rp u : List Char)
    (hg : env.genResult = Except.ok u) (hs : statusSuccess env.httpStatus = false) :
    generate_icon_image env ctx rp =
      { result := Except.error PipeErr.downloadError, promptSent := some (stripMarker rp),
        resizeCalls := [], written := [], ctxOut := ctx } := by
  unfold generate_icon_image
  rw [hg]
  simp [hs]

theorem generate_decode_error (env : GenEnv) (ctx : IconRequest) (rp u : List Char) (e : Unit)
    (hg : env.genResult = Except.ok u) (hs : statusSuccess env.httpStatus = true)
    (hd : env.decodeResult = Except.error e) :
    generate_icon_image env ctx rp =
      { result := Except.error PipeErr.decodeError, promptSent := some (stripMarker rp),
        resizeCalls := [], written := [], ctxOut := ctx } := by
  unfold generate_icon_image
  rw [hg, hd]
  simp [hs]

theorem generate_no_dir (env : GenEnv) (ctx : IconRequest) (rp u : List Char) (img : PILImage)
    (hg : env.genResult = Except.ok u) (hs : statusSuccess env.httpStatus = true)
    (hd : env.decodeResult = Except.ok img) (ho : env.outputDirExists = false) :
    generate_icon_image env ctx rp =
      { result := Except.error PipeErr.filesystemError, promptSent := some (stripMarker rp),
        resizeCalls := [((128, 128), ResampleFilter.lanczos)], written := [],
        ctxOut := ctx } := by
  unfold generate_icon_image
  rw [hg, hd]
  simp [hs, ho]

theorem generate_ok (env : GenEnv) (ctx : IconRequest) (rp u : List Char) (img : PILImage)
    (hg : env.genResult = Except.ok u) (hs : statusSuccess env.httpStatus = true)
    (hd : env.decodeResult = Except.ok img) (ho : env.outputDirExists = true) :
    generate_icon_image env ctx rp =
      { result := Except.ok (("Icon generated and saved to: ").data ++
          mkFilename ctx.art_style ctx.description env.loopTime),
        promptSent := some (stripMarker rp),
        resizeCalls := [((128, 128), ResampleFilter.lanczos)],
        written := [{ dir := ("output").data,
                      name := mkFilename ctx.art_style ctx.description env.loopTime,
                      content := pilResize img (128, 128) ResampleFilter.lanczos,
                      format := ("PNG").data }],
        ctxOut := ctx } := by
  unfold generate_icon_image
  rw [hg, hd]
  simp [hs, ho]

/-! Further concrete inputs for counterexamples and witnesses. -/

def plainPrompt : List Char := ("a simple icon prompt").data

def descX : List Char := List.replicate 30 (Char.ofNat 33) ++ [Char.ofNat 120]

def descY : List Char := List.replicate 30 (Char.ofNat 33) ++ [Char.ofNat 121]

/-! The claims. -/

/-- C1: for every refined-prompt string passed to generate_icon_image, the
prompt forwarded to the external generation service never contains the
delegation marker text; if present in the input it is stripped before use. -/
theorem c1_generate_forwards_marker_free_prompt :
    ∀ (env : GenEnv) (ctx : IconRequest) (rp p : List Char),
      (generate_icon_image env ctx rp).promptSent = some p →
      containsSub marker p = false := by
  intro env ctx rp p h
  rw [promptSent_eq] at h
  injection h with h1
  rw [← h1]
  exact stripMarker_no_marker rp

theorem c1_witness :
    (generate_icon_image envOk ctxSample rpSample).promptSent = some (stripMarker rpSample) ∧
    containsSub marker (stripMarker rpSample) = false :=
  ⟨promptSent_eq envOk ctxSample rpSample,
    c1_generate_forwards_marker_free_prompt envOk ctxSample rpSample (stripMarker rpSample)
      (promptSent_eq envOk ctxSample rpSample)⟩

/-- C2: under the per-task state machine (modelled from the spec, since the
tool-dispatch loop lives in the pydantic-ai framework), every event sequence
that drives a task from Idle to Done consists of exactly the start, one
successful consult-stylist and one successful generate-image, in that order;
in particular exactly one generate-image call occurs, preceded by exactly one
successful consult-stylist call. -/
theorem c2_task_run_exactly_one_consult_then_generate :
    ∀ evs : List TaskEvent, runTask TaskState.idle evs = some TaskState.done →
      evs = [TaskEvent.taskStart, TaskEvent.consultStylistOk, TaskEvent.generateImageOk] ∧
      evs.count TaskEvent.consultStylistOk = 1 ∧
      evs.count TaskEvent.generateImageOk = 1 := by
  intro evs h
  have hevs : evs =
      [TaskEvent.taskStart, TaskEvent.consultStylistOk, TaskEvent.generateImageOk] := by
    cases evs with
    | nil => exact absurd h (by simp [runTask])
    | cons e1 r1 =>
      cases e1 with
      | consultStylistOk => exact absurd h (by simp [runTask, taskStep])
      | generateImageOk => exact absurd h (by simp [runTask, taskStep])
      | taskStart =>
        simp only [runTask, taskStep] at h
        cases r1 with
        | nil => exact absurd h (by simp [runTask])
        | cons e2 r2 =>
          cases e2 with
          | taskStart => exact absurd h (by simp [runTask, taskStep])
          | generateImageOk => exact absurd h (by simp [runTask, taskStep])
          | consultStylistOk =>
            simp only [runTask, taskStep] at h
            cases r2 with
            | nil => exact absurd h (by simp [runTask])
            | cons e3 r3 =>
              cases e3 with
              | taskStart => exact absurd h (by simp [runTask, taskStep])
              | consultStylistOk => exact absurd h (by simp [runTask, taskStep])
              | generateImageOk =>
                simp only [runTask, taskStep] at h
                cases r3 with
                | nil => rfl
                | cons e4 r4 =>
                  cases e4 <;> exact absurd h (by simp [runTask, taskStep])
  rw [hevs]
  exact ⟨rfl, by decide, by decide⟩

theorem c2_witness :
    runTask TaskState.idle
        [TaskEvent.taskStart, TaskEvent.consultStylistOk, TaskEvent.generateImageOk] =
      some TaskState.done ∧
    ([TaskEvent.taskStart, TaskEvent.consultStylistOk,
        TaskEvent.generateImageOk].count TaskEvent.consultStylistOk = 1 ∧
      [TaskEvent.taskStart, TaskEvent.consultStylistOk,
        TaskEvent.generateImageOk].count TaskEvent.generateImageOk = 1) :=
  ⟨rfl, (c2_task_run_exactly_one_consult_then_generate
    [TaskEvent.taskStart, TaskEvent.consultStylistOk, TaskEvent.generateImageOk] rfl).2⟩

/-- C3: a non-success download response makes the task fail with a download
error and nothing is written; more generally a file is written only when the
service call, download, decode and resize steps have all completed. -/
theorem c3_download_failure_no_write :
    ∀ (env : GenEnv) (ctx : IconRequest) (rp : List Char),
      ((∃ u, env.genResult = Except.ok u) → statusSuccess env.httpStatus = false →
        (generate_icon_image env ctx rp).result = Except.error PipeErr.downloadError ∧
        (generate_icon_image env ctx rp).written = []) ∧
      ((generate_icon_image env ctx rp).written ≠ [] →
        (∃ u, env.genResult = Except.ok u) ∧ statusSuccess env.httpStatus = true ∧
        (∃ img, env.decodeResult = Except.ok img) ∧ env.outputDirExists = true ∧
        (generate_icon_image env ctx rp).resizeCalls = [((128, 128), ResampleFilter.lanczos)] ∧
        ∃ msg, (generate_icon_image env ctx rp).result = Except.ok msg) := by
  intro env ctx rp
  constructor
  · rintro ⟨u, hu⟩ hs
    rw [generate_download_error env ctx rp u hu hs]
    exact ⟨rfl, rfl⟩
  · intro hw
    cases hg : env.genResult with
    | error e =>
      rw [generate_service_error env ctx rp e hg] at hw
      exact absurd rfl hw
    | ok u =>
      cases hs : statusSuccess env.httpStatus with
      | false =>
        rw [generate_download_error env ctx rp u hg hs] at hw
        exact absurd rfl hw
      | true =>
        cases hd : env.decodeResult with
        | error e =>
          rw [generate_decode_error env ctx rp u e hg hs hd] at hw
          exact absurd rfl hw
        | ok img =>
          cases ho : env.outputDirExists with
          | false =>
            rw [generate_no_dir env ctx rp u img hg hs hd ho] at hw
            exact absurd rfl hw
          | true =>
            rw [generate_ok env ctx rp u img hg hs hd ho]
            exact ⟨⟨u, rfl⟩, rfl, ⟨img, rfl⟩, rfl, rfl, ⟨_, rfl⟩⟩

theorem c3_witness :
    (generate_icon_image envBad ctxSample rpSample).result =
      Except.error PipeErr.downloadError ∧
    (generate_icon_image envBad ctxSample rpSample).written = [] :=
  (c3_download_failure_no_write envBad ctxSample rpSample).1 ⟨urlSample, rfl⟩ rfl

/-- C4: every file the pipeline persists holds an image of exactly 128 by 128
pixels, saved as PNG, obtained by resizing the decoded source image with the
LANCZOS filter, whatever the source resolution. -/
theorem c4_saved_image_128_lanczos :
    ∀ (env : GenEnv) (ctx : IconRequest) (rp : List Char) (f : SavedFile),
      f ∈ (generate_icon_image env ctx rp).written →
      f.content.width = 128 ∧ f.content.height = 128 ∧ f.format = ("PNG").data ∧
      (∃ img, env.decodeResult = Except.ok img ∧
        f.content = pilResize img (128, 128) ResampleFilter.lanczos) ∧
      (generate_icon_image env ctx rp).resizeCalls =
        [((128, 128), ResampleFilter.lanczos)] := by
  intro env ctx rp f hf
  cases hg : env.genResult with
  | error e =>
    rw [generate_service_error env ctx rp e hg] at hf
    exact absurd hf (by simp)
  | ok u =>
    cases hs : statusSuccess env.httpStatus with
    | false =>
      rw [generate_download_error env ctx rp u hg hs] at hf
      exact absurd hf (by simp)
    | true =>
      cases hd : env.decodeResult with
      | error e =>
        rw [generate_decode_error env ctx rp u e hg hs hd] at hf
        exact absurd hf (by simp)
      | ok img =>
        cases ho : env.outputDirExists with
        | false =>
          rw [generate_no_dir env ctx rp u img hg hs hd ho] at hf
          exact absurd hf (by simp)
        | true =>
          rw [generate_ok env ctx rp u img hg hs hd ho] at hf
          simp only [List.mem_singleton] at hf
          rw [generate_ok env ctx rp u img hg hs hd ho, hf]
          exact ⟨rfl, rfl, rfl, ⟨img, rfl, rfl⟩, rfl⟩

theorem c4_witness :
    fileOk ∈ (generate_icon_image envOk ctxSample rpSample).written ∧
    fileOk.content.width = 128 ∧ fileOk.content.height = 128 :=
  ⟨by decide,
    (c4_saved_image_128_lanczos envOk ctxSample rpSample fileOk (by decide)).1,
    (c4_saved_image_128_lanczos envOk ctxSample rpSample fileOk (by decide)).2.1⟩

/-- C5 counterexample: on the scenario inputs the pipeline writes a file, and
no written file bears the unsuffixed name the claim announces, because the
code always appends the event-loop timestamp. -/
theorem c5_filename_cex :
    (generate_icon_image envOk ctxSample rpSample).written ≠ [] ∧
    (((generate_icon_image envOk ctxSample rpSample).written.map SavedFile.name).contains
      (("icon_minimalist_a_hot_cup_of_coffee.png").data)) = false := by
  decide

/-- C5 (amended): the pipeline names the output file
icon_SANITIZEDSTYLE_SANITIZEDDESCRIPTION_TIMESTAMP.png, the time-derived
discriminator being always appended; for style minimalist and description
a hot cup of coffee the file written is named
icon_minimalist_a_hot_cup_of_coffee_TIMESTAMP.png. -/
theorem c5_filename_includes_timestamp :
    ∀ (env : GenEnv) (ctx : IconRequest) (rp : List Char) (f : SavedFile),
      ctx.art_style = ("minimalist").data →
      ctx.description = ("a hot cup of coffee").data →
      f ∈ (generate_icon_image env ctx rp).written →
      f.name = ("icon_minimalist_a_hot_cup_of_coffee_").data ++ env.loopTime ++
        (".png").data := by
  intro env ctx rp f hstyle hdesc hf
  cases hg : env.genResult with
  | error e =>
    rw [generate_service_error env ctx rp e hg] at hf
    exact absurd hf (by simp)
  | ok u =>
    cases hs : statusSuccess env.httpStatus with
    | false =>
      rw [generate_download_error env ctx rp u hg hs] at hf
      exact absurd hf (by simp)
    | true =>
      cases hd : env.decodeResult with
      | error e =>
        rw [generate_decode_error env ctx rp u e hg hs hd] at hf
        exact absurd hf (by simp)
      | ok img =>
        cases ho : env.outputDirExists with
        | false =>
          rw [generate_no_dir env ctx rp u img hg hs hd ho] at hf
          exact absurd hf (by simp)
        | true =>
          rw [generate_ok env ctx rp u img hg hs hd ho] at hf
          simp only [List.mem_singleton] at hf
          rw [hf]
          show mkFilename ctx.art_style ctx.description env.loopTime = _
          rw [hstyle, hdesc, mkFilename_coffee]

theorem c5_filename_witness :
    fileOk ∈ (generate_icon_image envOk ctxSample rpSample).written ∧
    fileOk.name = ("icon_minimalist_a_hot_cup_of_coffee_").data ++ envOk.loopTime ++
      (".png").data :=
  ⟨by decide,
    c5_filename_includes_timestamp envOk ctxSample rpSample fileOk rfl rfl (by decide)⟩

/-- C6 counterexample: two descriptions that agree on their first 30
characters produce different filename segments, so the segment is not a
function of a length-capped prefix of the description: the 30-character cap
is applied to the character-filtered description, not to the raw one. -/
theorem c6_desc_prefix_cex :
    30 < descX.length ∧ 30 < descY.length ∧ descX.take 30 = descY.take 30 ∧
    sanitizeDesc descX ≠ sanitizeDesc descY := by
  decide

/-- C6 (amended): for every description longer than 30 characters the filename
segment is computed from the first 30 characters of the character-filtered
description, the cap being applied before stripping and before the underscore
substitution, so the resulting segment is at most 30 characters long. -/
theorem c6_desc_cap_before_underscores :
    ∀ d : List Char, 30 < d.length →
      sanitizeDesc d = (pyStrip ((d.filter keepChar).take 30)).map replChar ∧
      (sanitizeDesc d).length ≤ 30 := by
  intro d _
  exact ⟨rfl, sanitizeDesc_length_le d⟩

theorem c6_desc_witness :
    30 < descX.length ∧ (sanitizeDesc descX).length ≤ 30 :=
  ⟨by decide, (c6_desc_cap_before_underscores descX (by decide)).2⟩

/-- C7: the filename sanitization (filter the character class, strip
surrounding whitespace, replace spaces by underscores) is idempotent. -/
theorem c7_sanitize_idempotent :
    ∀ s : List Char, sanitizeStyle (sanitizeStyle s) = sanitizeStyle s :=
  fun s => sanitizeStyle_idem s

/-- C8 counterexample: with the output directory absent and every other step
succeeding, the generate-image capability itself fails with a filesystem
error instead of succeeding: the capability does not create the directory. -/
theorem c8_dir_cex :
    envNoDir.outputDirExists = false ∧
    (generate_icon_image envNoDir ctxSample rpSample).result =
      Except.error PipeErr.filesystemError :=
  ⟨rfl, rfl⟩

/-- C8 (amended): the pipeline writes the PNG into the output directory but
does not create it: with the directory absent the capability fails with a
filesystem error and writes nothing; the directory is created by the task
driver (main) before any task runs, after which the capability succeeds. -/
theorem c8_dir_created_by_driver :
    ∀ (env : GenEnv) (ctx : IconRequest) (rp u : List Char) (img : PILImage),
      env.genResult = Except.ok u → statusSuccess env.httpStatus = true →
      env.decodeResult = Except.ok img →
      ((env.outputDirExists = false →
        (generate_icon_image env ctx rp).result = Except.error PipeErr.filesystemError ∧
        (generate_icon_image env ctx rp).written = []) ∧
      (mainEnsureOutputDir env).outputDirExists = true ∧
      ∃ msg, (generate_icon_image (mainEnsureOutputDir env) ctx rp).result =
        Except.ok msg) := by
  intro env ctx rp u img hg hs hd
  refine ⟨?_, rfl, ?_⟩
  · intro ho
    rw [generate_no_dir env ctx rp u img hg hs hd ho]
    exact ⟨rfl, rfl⟩
  · have hg' : (mainEnsureOutputDir env).genResult = Except.ok u := hg
    have hs' : statusSuccess (mainEnsureOutputDir env).httpStatus = true := hs
    have hd' : (mainEnsureOutputDir env).decodeResult = Except.ok img := hd
    rw [generate_ok (mainEnsureOutputDir env) ctx rp u img hg' hs' hd' rfl]
    exact ⟨_, rfl⟩

theorem c8_dir_witness :
    ((generate_icon_image envNoDir ctxSample rpSample).result =
        Except.error PipeErr.filesystemError ∧
      (generate_icon_image envNoDir ctxSample rpSample).written = []) ∧
    ∃ msg, (generate_icon_image (mainEnsureOutputDir envNoDir) ctxSample rpSample).result =
      Except.ok msg := by
  rcases c8_dir_created_by_driver envNoDir ctxSample rpSample urlSample sampleImage
    rfl rfl rfl with ⟨h1, _, h3⟩
  exact ⟨h1 rfl, h3⟩

/-- C9: the shared request context is never mutated: the stylist refine tool,
the consult-stylist tool and the generate-image tool all leave every field of
the context unchanged. -/
theorem c9_context_immutable :
    ∀ (ctx : IconRequest) (p so rp : List Char) (env : GenEnv),
      (refine_prompt ctx).2 = ctx ∧ (consult_style_expert ctx p so).2 = ctx ∧
      (generate_icon_image env ctx rp).ctxOut = ctx := by
  intro ctx p so rp env
  exact ⟨rfl, rfl, ctxOut_eq env ctx rp⟩

/-- C10: marker removal keeps only the text after the last occurrence of the
marker, stripped of surrounding whitespace, discarding everything before it;
when the marker is absent the input is forwarded unchanged. -/
theorem c10_marker_split_last :
    ∀ s : List Char,
      (containsSub marker s = false → stripMarker s = s) ∧
      (containsSub marker s = true →
        ∃ a b, s = a ++ marker ++ b ∧ containsSub marker b = false ∧
          stripMarker s = pyStrip b) := by
  intro s
  constructor
  · intro h
    simp [stripMarker, h]
  · intro h
    rcases pySplit_last_decomp marker marker_ne_nil s.length s (le_refl _) h with ⟨a, ha⟩
    exact ⟨a, (pySplit marker s).getLastD [], ha,
      pySplit_getLastD_not_contains marker marker_ne_nil s.length s (le_refl _),
      by simp [stripMarker, h]⟩

theorem c10_witness :
    (containsSub marker plainPrompt = false ∧ stripMarker plainPrompt = plainPrompt) ∧
    (containsSub marker rpSample = true ∧
      ∃ a b, rpSample = a ++ marker ++ b ∧ containsSub marker b = false ∧
        stripMarker rpSample = pyStrip b) :=
  ⟨⟨by decide, (c10_marker_split_last plainPrompt).1 (by decide)⟩,
    ⟨by decide, (c10_marker_split_last rpSample).2 (by decide)⟩⟩

end IconGen
